import Mathlib

/-!
Verification of the AIHedgeFund repository against its specification.

The embedding covers:
* `scripts/init_db.sql` — the enum types and the seed insert, with the
  `EXCEPTION WHEN duplicate_object THEN null` blocks and the
  `ON CONFLICT (name) DO NOTHING` clause modelled as absent-checks on the
  database state;
* `apps/web/src/app/dashboard/page.tsx` — the `fetchUserData`,
  `createApiKey` and modal logic of the dashboard page;
* components of the ingestion pipeline (persistence commit, fetcher retry,
  normalizer) that the specification describes but that have no code in the
  repository yet; these are modelled from the specification text and marked
  as such in their doc comments.
-/

/- ===================== Definitions: init_db.sql ===================== -/

/-- From scripts/init_db.sql lines 8-12: the labels of
`CREATE TYPE processing_status_enum AS ENUM (...)`, in declaration order. -/
def processing_status_enum : List String :=
  ["pending", "processing", "completed", "failed"]

/-- From scripts/init_db.sql lines 14-18: the labels of
`CREATE TYPE statement_type_enum AS ENUM (...)`, in declaration order. -/
def statement_type_enum : List String :=
  ["income", "balance", "cashflow", "equity"]

/-- From scripts/init_db.sql lines 20-24: labels of `put_call_enum`. -/
def put_call_enum : List String := ["put", "call", "both", "none"]

/-- From scripts/init_db.sql lines 26-30: labels of `user_role_enum`. -/
def user_role_enum : List String := ["user", "admin", "internal"]

/-- From scripts/init_db.sql lines 32-36: labels of `subscription_status_enum`. -/
def subscription_status_enum : List String :=
  ["active", "canceled", "past_due", "paused"]

/-- From scripts/init_db.sql lines 38-42: labels of `account_type_enum`. -/
def account_type_enum : List String := ["paper", "live"]

/-- From scripts/init_db.sql lines 44-48: labels of `order_side_enum`. -/
def order_side_enum : List String := ["buy", "sell"]

/-- From scripts/init_db.sql lines 50-54: labels of `order_type_enum`. -/
def order_type_enum : List String := ["market", "limit", "stop", "stop_limit"]

/-- From scripts/init_db.sql lines 56-60: labels of `order_status_enum`. -/
def order_status_enum : List String :=
  ["pending", "submitted", "filled", "partially_filled", "canceled", "rejected"]

/-- The filing-status state names used by the specification (section 4.6):
the state machine pending, fetching, parsing, persisting, completed, plus
failed and dead-lettered.  Written from the wording of the spec, for
comparison with the enum the SQL script declares. -/
def specFilingStatuses : List String :=
  ["pending", "fetching", "parsing", "persisting", "completed", "failed",
   "dead-lettered"]

/-- The statement-category names used by the specification (section 3):
income, balance, cashflow, equity or holdings-line.  Written from the
wording of the spec, for comparison with `statement_type_enum`. -/
def specStatementCategories : List String :=
  ["income", "balance", "cashflow", "equity", "holdings-line"]

/-- One row of the `plans` table as seeded by scripts/init_db.sql lines
63-68.  The `uuid_generate_v4()` primary key is modelled as a natural
number supplied by the caller (each execution may draw different ids). -/
structure PlanRow where
  id : Nat
  name : String
  display_name : String
  description : String
  price_monthly : Nat
  requests_per_day : Nat
  rows_per_response : Nat
  is_active : Bool
deriving DecidableEq, Repr

/-- The part of the database state that scripts/init_db.sql touches:
installed extensions, created enum types (name with labels), and rows of
the `plans` table. -/
@[ext]
structure DbState where
  extensions : List String
  types : List (String × List String)
  plans : List PlanRow
deriving DecidableEq, Repr

/-- Append `a` to `l` unless an element with the same key is already
present.  This is the common shape of every statement in
scripts/init_db.sql: `CREATE EXTENSION IF NOT EXISTS`, the
`CREATE TYPE ... EXCEPTION WHEN duplicate_object THEN null` blocks, and
`INSERT ... ON CONFLICT (name) DO NOTHING` all leave the state unchanged
(and raise no error) when the keyed object already exists. -/
def addIfAbsent {α β : Type} [DecidableEq β] (key : α → β) (a : α)
    (l : List α) : List α :=
  if key a ∈ l.map key then l else l ++ [a]

/-- Run a sequence of keyed absent-checked inserts, first to last. -/
def addAllIfAbsent {α β : Type} [DecidableEq β] (key : α → β) (as : List α)
    (l : List α) : List α :=
  as.foldl (fun acc a => addIfAbsent key a acc) l

/-- From scripts/init_db.sql lines 4-5: `CREATE EXTENSION IF NOT EXISTS`. -/
def createExtensionIfNotExists (n : String) (s : DbState) : DbState :=
  { s with extensions := addIfAbsent id n s.extensions }

/-- From scripts/init_db.sql lines 8-60: one `DO $$ BEGIN CREATE TYPE ...
EXCEPTION WHEN duplicate_object THEN null; END $$` block.  When a type of
that name exists, the handler swallows the error and the state is
unchanged. -/
def createTypeCatchDuplicate (n : String) (labels : List String)
    (s : DbState) : DbState :=
  { s with types := addIfAbsent Prod.fst (n, labels) s.types }

/-- From scripts/init_db.sql lines 63-68: insert one row of the seed
`INSERT INTO plans ... ON CONFLICT (name) DO NOTHING`.  A row whose `name`
already exists is skipped without error. -/
def insertPlanOnConflict (r : PlanRow) (s : DbState) : DbState :=
  { s with plans := addIfAbsent PlanRow.name r s.plans }

/-- From scripts/init_db.sql line 65: the seeded `free` plan row. -/
def freePlanRow (u : Nat) : PlanRow :=
  ⟨u, "free", "Free", "Basic access to SEC data API", 0, 100, 100, true⟩

/-- From scripts/init_db.sql line 66: the seeded `pro` plan row. -/
def proPlanRow (u : Nat) : PlanRow :=
  ⟨u, "pro", "Pro", "Full API access with higher limits", 99, 10000, 1000, true⟩

/-- From scripts/init_db.sql line 67: the seeded `enterprise` plan row. -/
def enterprisePlanRow (u : Nat) : PlanRow :=
  ⟨u, "enterprise", "Enterprise", "Unlimited access with SLA", 999, 1000000,
   100000, true⟩

/-- The nine enum declarations of scripts/init_db.sql lines 8-60, in
script order. -/
def typeDecls : List (String × List String) :=
  [("processing_status_enum", processing_status_enum),
   ("statement_type_enum", statement_type_enum),
   ("put_call_enum", put_call_enum),
   ("user_role_enum", user_role_enum),
   ("subscription_status_enum", subscription_status_enum),
   ("account_type_enum", account_type_enum),
   ("order_side_enum", order_side_enum),
   ("order_type_enum", order_type_enum),
   ("order_status_enum", order_status_enum)]

/-- The three seed rows of scripts/init_db.sql lines 63-68, in script
order, with the uuids drawn for one execution. -/
def seedPlanRows (u1 u2 u3 : Nat) : List PlanRow :=
  [freePlanRow u1, proPlanRow u2, enterprisePlanRow u3]

/-- The whole of scripts/init_db.sql, executed top to bottom on a database
state: the two extensions, the nine enum-creation blocks, then the seed
insert of the three plan rows.  `u1 u2 u3` are the uuids drawn by
`uuid_generate_v4()` for the three rows of this execution. -/
def runInitDb (u1 u2 u3 : Nat) (s0 : DbState) : DbState :=
  let s1 := createExtensionIfNotExists "uuid-ossp" s0
  let s2 := createExtensionIfNotExists "pg_trgm" s1
  let s3 := createTypeCatchDuplicate "processing_status_enum" processing_status_enum s2
  let s4 := createTypeCatchDuplicate "statement_type_enum" statement_type_enum s3
  let s5 := createTypeCatchDuplicate "put_call_enum" put_call_enum s4
  let s6 := createTypeCatchDuplicate "user_role_enum" user_role_enum s5
  let s7 := createTypeCatchDuplicate "subscription_status_enum" subscription_status_enum s6
  let s8 := createTypeCatchDuplicate "account_type_enum" account_type_enum s7
  let s9 := createTypeCatchDuplicate "order_side_enum" order_side_enum s8
  let s10 := createTypeCatchDuplicate "order_type_enum" order_type_enum s9
  let s11 := createTypeCatchDuplicate "order_status_enum" order_status_enum s10
  let s12 := insertPlanOnConflict (freePlanRow u1) s11
  let s13 := insertPlanOnConflict (proPlanRow u2) s12
  insertPlanOnConflict (enterprisePlanRow u3) s13

/- ============ Definitions: persistence layer (spec-modelled) ============ -/

/-- Modelled from the spec: a fiscal period is "a (year, optional quarter)
pair" (glossary; section 3), the quarter nullable for annual filings.  The
repository has no pipeline code under apps/ or packages/ yet; the
Persistence Layer exists only as the description in ARCHITECTURE.md, so
the data model is taken from the specification text. -/
structure FiscalPeriod where
  year : Nat
  quarter : Option Nat
deriving DecidableEq, Repr

/-- Modelled from the spec: the uniqueness key of a NormalizedFact, "the
tuple (filing ID, statement category, line-item key, fiscal period)"
(section 3). -/
structure FactKey where
  filingId : Nat
  category : String
  lineItemKey : String
  period : FiscalPeriod
deriving DecidableEq, Repr

/-- Modelled from the spec: NormalizedFact (section 3): key attributes
plus numeric value, unit, currency and source provenance. -/
structure NormalizedFact where
  key : FactKey
  value : Int
  unit : String
  currency : String
  provenance : String
deriving DecidableEq, Repr

/-- Modelled from the spec: a committed fact belongs to exactly one Filing
(section 3), namely the filing of the commit that persisted it. -/
def stampFiling (f : Nat) (fact : NormalizedFact) : NormalizedFact :=
  { fact with key := { fact.key with filingId := f } }

/-- Modelled from the spec: the upsert is "keyed by the uniqueness
invariants in section 3", so within one snapshot at most one fact per key
is kept (the first occurrence; later duplicates of a key are dropped). -/
def dedupByKey : List NormalizedFact → List NormalizedFact
  | [] => []
  | x :: xs => x :: dedupByKey (xs.filter (fun y => decide (y.key ≠ x.key)))
termination_by l => l.length
decreasing_by
  simp only [List.length_cons]
  exact Nat.lt_succ_of_le (List.length_filter_le _ _)

/-- Modelled from the spec: Persistence Layer (section 4.6)
`commit(filing, facts)`: "re-committing the same filing replaces prior
facts for that filing atomically" — the filing's old facts are dropped,
the new snapshot is stored, facts of other filings are untouched, all in
one transactional boundary. -/
def commit (db : List NormalizedFact) (f : Nat)
    (facts : List NormalizedFact) : List NormalizedFact :=
  db.filter (fun x => decide (x.key.filingId ≠ f)) ++
    dedupByKey (facts.map (stampFiling f))

/-- Database states reachable from the empty fact store by commit
operations. -/
inductive ReachableDb : List NormalizedFact → Prop
  | empty : ReachableDb []
  | commit (db : List NormalizedFact) (f : Nat)
      (facts : List NormalizedFact) :
      ReachableDb db → ReachableDb (commit db f facts)

/-- A concrete fact used to instantiate the persistence theorems. -/
def sampleFact : NormalizedFact :=
  ⟨⟨1, "income", "revenue", ⟨2023, none⟩⟩, 5, "USD", "USD", "Revenues"⟩

/- ============ Definitions: fetcher (spec-modelled) ============ -/

/-- Modelled from the spec: an HTTP-equivalent response, reduced to the
status code and the raw body.  The Fetcher exists only as the description
in ARCHITECTURE.md (section 2 Download: retry with exponential backoff);
there is no fetch code under src/, so the component is modelled from
spec section 4.1. -/
structure HttpResponse where
  status : Nat
  body : String
deriving DecidableEq, Repr

/-- Modelled from the spec: the error surfaced on the final failure,
`FetchFailed` with locator, lastStatus and attempts (section 4.1). -/
structure FetchFailed where
  locator : String
  lastStatus : Nat
  attempts : Nat
deriving DecidableEq, Repr

/-- Modelled from the spec: a successful fetch result, the raw body
together with the number of the attempt that succeeded. -/
structure FetchOk where
  body : String
  attempts : Nat
deriving DecidableEq, Repr

/-- A 2xx status. -/
def isSuccessStatus (s : Nat) : Bool := decide (200 ≤ s ∧ s < 300)

/-- Modelled from the spec: the 429/5xx-class statuses that are retried
(section 4.1). -/
def isRetryableStatus (s : Nat) : Bool :=
  decide (s = 429 ∨ (500 ≤ s ∧ s < 600))

/-- Modelled from the spec: the default retry cap, N = 5 (section 4.1). -/
def defaultMaxAttempts : Nat := 5

/-- Modelled from the spec: the retry loop of `fetch(locator)`
(section 4.1).  `responses i` is the status/body the source returns to
attempt number `i`; `attempt` is the number of the current attempt and
`remaining` how many attempts are still allowed.  A 2xx response returns
the body; a 429/5xx response is retried while an attempt remains (the
backoff-with-jitter delay between attempts is a real-time concern and is
abstracted away); on the final failure the FetchFailed error carries the
locator, the last status and the attempt count. -/
def fetchFrom (locator : String) (responses : Nat → HttpResponse)
    (attempt : Nat) : Nat → Except FetchFailed FetchOk
  | 0 => .error ⟨locator, (responses attempt).status, attempt⟩
  | 1 =>
    if isSuccessStatus (responses attempt).status then
      .ok ⟨(responses attempt).body, attempt⟩
    else .error ⟨locator, (responses attempt).status, attempt⟩
  | n + 2 =>
    if isSuccessStatus (responses attempt).status then
      .ok ⟨(responses attempt).body, attempt⟩
    else if isRetryableStatus (responses attempt).status then
      fetchFrom locator responses (attempt + 1) (n + 1)
    else .error ⟨locator, (responses attempt).status, attempt⟩

/-- Modelled from the spec: `fetch(locator)` with the default cap. -/
def fetch (locator : String) (responses : Nat → HttpResponse) :
    Except FetchFailed FetchOk :=
  fetchFrom locator responses 1 defaultMaxAttempts

/- ============ Definitions: normalizer (spec-modelled) ============ -/

/-- Modelled from the spec: a calendar date, for the filing period-end. -/
structure PlainDate where
  year : Nat
  month : Nat
  day : Nat
deriving DecidableEq, Repr

/-- Modelled from the spec: the enumerated form types of a Filing
(section 3): annual report, quarterly report, current report,
institutional-holdings report, other. -/
inductive FormType where
  | annual
  | quarterly
  | current
  | holdingsReport
  | other
deriving DecidableEq, Repr

/-- Modelled from the spec: one intermediate fact produced by the
taxonomy-fact parser — the raw tag and the declared value string.  The
Normalizer exists only as the description in ARCHITECTURE.md (section 3
Parsing); there is no parser or normalizer code under src/, so the
component is modelled from spec section 4.5. -/
structure IntermediateFact where
  tag : String
  rawValue : String
deriving DecidableEq, Repr

/-- Modelled from the spec: a parsed taxonomy-fact document with its
document-level scale declaration, period-end date, form type and fact
list. -/
structure TaxonomyDoc where
  scale : String
  periodEnd : PlainDate
  formType : FormType
  facts : List IntermediateFact
deriving DecidableEq, Repr

/-- Modelled from the spec: value scaling inferred from the
document-level scale declaration (section 4.5), e.g. thousands vs raw
units. -/
def scaleFactor (scale : String) : Int :=
  if scale = "thousands" then 1000
  else if scale = "millions" then 1000000
  else 1

/-- Modelled from the spec: the priority-ordered alias table mapping raw
taxonomy tags to a (statement category, canonical line-item key) pair
(section 4.5); the first match wins. -/
def aliasTable : List (String × String × String) :=
  [("Revenue", "income", "revenue"),
   ("Revenues", "income", "revenue"),
   ("SalesRevenueNet", "income", "revenue"),
   ("NetIncomeLoss", "income", "net_income"),
   ("Assets", "balance", "assets"),
   ("Liabilities", "balance", "liabilities"),
   ("NetCashProvidedByUsedInOperatingActivities", "cashflow",
    "operating_cash_flow"),
   ("StockholdersEquity", "equity", "stockholders_equity")]

/-- Modelled from the spec: resolve a tag through the alias table;
unmapped items pass through tagged as uncategorized rather than being
discarded (section 4.5). -/
def lookupAlias (tag : String) : String × String :=
  match aliasTable.find? (fun e => decide (e.1 = tag)) with
  | some e => e.2
  | none => ("uncategorized", tag)

/-- The numeric value of a decimal digit character. -/
def digitVal (c : Char) : Option Nat :=
  if c.isDigit then some (c.toNat - 48) else none

/-- Accumulate decimal digits left to right; any non-digit fails. -/
def parseNatAux : List Char → Nat → Option Nat
  | [], acc => some acc
  | c :: cs, acc =>
    match digitVal c with
    | none => none
    | some d => parseNatAux cs (acc * 10 + d)

/-- Modelled from the spec: read the declared decimal value string of a
taxonomy fact, with an optional leading minus sign. -/
def parseDeclaredValue (s : String) : Option Int :=
  match s.data with
  | [] => none
  | c :: cs =>
    if c = '-' then
      match cs with
      | [] => none
      | _ => (parseNatAux cs 0).map (fun n => -(n : Int))
    else (parseNatAux (c :: cs) 0).map (fun n => (n : Int))

/-- Modelled from the spec: fiscal-period derivation from the filing
period-end date and form type (section 4.5): an annual filing carries a
null quarter, a quarterly filing derives the quarter from the period-end
month. -/
def derivePeriod (periodEnd : PlainDate) (ft : FormType) : FiscalPeriod :=
  match ft with
  | .quarterly => ⟨periodEnd.year, some ((periodEnd.month - 1) / 3 + 1)⟩
  | _ => ⟨periodEnd.year, none⟩

/-- Modelled from the spec: normalize one intermediate fact — scale the
declared value by the document scale, map the tag through the alias
table, attach the derived fiscal period.  The filing id of the key is
assigned by the commit that persists the fact. -/
def normalizeFact (scale : Int) (period : FiscalPeriod)
    (fi : IntermediateFact) : Option NormalizedFact :=
  match parseDeclaredValue fi.rawValue with
  | none => none
  | some v =>
    some { key := { filingId := 0, category := (lookupAlias fi.tag).1,
                    lineItemKey := (lookupAlias fi.tag).2, period := period },
           value := v * scale, unit := "USD", currency := "USD",
           provenance := fi.tag }

/-- Modelled from the spec: `normalize` applied to a whole taxonomy-fact
document (section 4.5). -/
def normalizeDoc (doc : TaxonomyDoc) : List NormalizedFact :=
  doc.facts.filterMap
    (normalizeFact (scaleFactor doc.scale)
      (derivePeriod doc.periodEnd doc.formType))

/- ============ Definitions: dashboard page (apps/web) ============ -/

/-- From apps/web/src/app/dashboard/page.tsx: one row of the API-key
list as returned by the key-list endpoint and rendered at lines 169-184;
the row carries `id`, `key_prefix` and `created_at` (field names
camel-cased here), not the full key value. -/
structure ApiKeyRow where
  id : String
  keyPrefix : String
  createdAt : String
deriving DecidableEq, Repr

/-- Outcome of one `fetch` call made by the page: an ok response with
parsed data, a non-ok response, or a thrown network error. -/
inductive ApiResult (α : Type) where
  | ok (data : α)
  | notOk
  | thrown
deriving DecidableEq, Repr

/-- The inputs that determine one run of `fetchUserData` (page.tsx lines
19-53): the `access_token` entry of localStorage (`none` when absent)
and the outcomes of the user-info and key-list requests. -/
structure FetchUserEnv where
  token : Option String
  userRes : ApiResult String
  keysRes : ApiResult (List ApiKeyRow)
deriving DecidableEq, Repr

/-- What one run of `fetchUserData` did: the endpoints requested in
order, the navigation target if the router was pushed, the user and key
state set, and the final value of the `loading` flag. -/
structure FetchUserOutcome where
  requests : List String
  nav : Option String
  user : Option String
  apiKeys : Option (List ApiKeyRow)
  loadingAfter : Bool
deriving DecidableEq, Repr

/-- JS truthiness of the guard on page.tsx line 22: `!token` holds when
localStorage returned null or the empty string. -/
def tokenFalsy : Option String → Bool
  | none => true
  | some t => decide (t = "")

/-- From page.tsx lines 19-53: `fetchUserData`.  Without a token it
pushes /login and returns before the try block (so no request is made
and `loading` stays true).  Otherwise it requests /v1/auth/me; a non-ok
response or a thrown error is caught, logged and answered with a push to
/login.  On success it stores the user, requests /v1/auth/api-keys, and
on that failing likewise pushes /login; only when both requests succeed
is no navigation performed and the key list stored.  The finally block
clears `loading`. -/
def fetchUserData (env : FetchUserEnv) : FetchUserOutcome :=
  if tokenFalsy env.token then
    { requests := [], nav := some "/login", user := none, apiKeys := none,
      loadingAfter := true }
  else
    match env.userRes with
    | .thrown =>
      { requests := ["/v1/auth/me"], nav := some "/login", user := none,
        apiKeys := none, loadingAfter := false }
    | .notOk =>
      { requests := ["/v1/auth/me"], nav := some "/login", user := none,
        apiKeys := none, loadingAfter := false }
    | .ok u =>
      match env.keysRes with
      | .thrown =>
        { requests := ["/v1/auth/me", "/v1/auth/api-keys"],
          nav := some "/login", user := some u, apiKeys := none,
          loadingAfter := false }
      | .notOk =>
        { requests := ["/v1/auth/me", "/v1/auth/api-keys"],
          nav := some "/login", user := some u, apiKeys := none,
          loadingAfter := false }
      | .ok ks =>
        { requests := ["/v1/auth/me", "/v1/auth/api-keys"], nav := none,
          user := some u, apiKeys := some ks, loadingAfter := false }

/-- Whether an ApiResult is an ok response. -/
def apiResultOk {α : Type} : ApiResult α → Bool
  | .ok _ => true
  | _ => false

/-- From page.tsx lines 165-186: the data-bearing strings the persistent
API-key list renders — for an empty list the hint text, otherwise, per
key, its `key_prefix`, its formatted `created_at` line, and the Revoke
button label.  The full key value is nowhere among them. -/
def renderKeyList (apiKeys : List ApiKeyRow) : List String :=
  if apiKeys.length = 0 then
    ["No API keys yet. Create one to get started."]
  else
    (apiKeys.map (fun k =>
      [k.keyPrefix, "Created " ++ k.createdAt, "Revoke"])).flatten

/-- From page.tsx lines 192-213: the data-bearing strings of the
one-time modal — when `showKeyModal` is set it shows the heading, the
full `newKey`, and the button label (the static warning sentence is
elided); when unset the modal renders nothing. -/
def renderKeyModal (showKeyModal : Bool) (newKey : String) : List String :=
  if showKeyModal then
    ["Your New API Key", newKey, "Copy and Close"]
  else []

/-- From page.tsx lines 12-13: the modal-related component state, initial
values false and the empty string. -/
structure DashState where
  showKeyModal : Bool
  newKey : String
deriving DecidableEq, Repr

/-- The events that can touch the modal state: `createApiKey` succeeding
with the created key (page.tsx lines 70-72: setNewKey, then
setShowKeyModal true), `createApiKey` failing (lines 76-78: only
console.error), the Copy and Close button (lines 202-210: copy to
clipboard, setShowKeyModal false), and a `fetchUserData` refresh, which
never writes `showKeyModal` or `newKey`. -/
inductive DashEvent where
  | createSuccess (key : String)
  | createFailure
  | closeModal
  | refresh
deriving DecidableEq, Repr

/-- From page.tsx: the state transition of each event. -/
def dashStep (s : DashState) : DashEvent → DashState
  | .createSuccess k => { showKeyModal := true, newKey := k }
  | .createFailure => s
  | .closeModal => { s with showKeyModal := false }
  | .refresh => s

/-- The number of steps of a trace at which the modal goes from closed
to open. -/
def countOpenings : DashState → List DashEvent → Nat
  | _, [] => 0
  | s, e :: es =>
    (if s.showKeyModal = false ∧ (dashStep s e).showKeyModal = true
     then 1 else 0) + countOpenings (dashStep s e) es

/-- The number of successful key creations in a trace. -/
def countCreates (es : List DashEvent) : Nat :=
  es.countP (fun e => match e with
    | DashEvent.createSuccess _ => true
    | _ => false)

/- ===================== Theorems: helper lemmas ===================== -/

theorem mem_map_addIfAbsent_self {α β : Type} [DecidableEq β] (key : α → β)
    (a : α) (l : List α) : key a ∈ (addIfAbsent key a l).map key := by
  unfold addIfAbsent
  split
  · assumption
  · simp

theorem mem_map_addIfAbsent_of_mem {α β : Type} [DecidableEq β] (key : α → β)
    (a : α) (l : List α) (b : β) (h : b ∈ l.map key) :
    b ∈ (addIfAbsent key a l).map key := by
  unfold addIfAbsent
  split
  · assumption
  · simp only [List.map_append, List.mem_append]
    exact Or.inl h

theorem addIfAbsent_of_mem {α β : Type} [DecidableEq β] (key : α → β)
    (a : α) (l : List α) (h : key a ∈ l.map key) :
    addIfAbsent key a l = l := by
  unfold addIfAbsent
  exact if_pos h

theorem createExtensionIfNotExists_extensions (n : String) (s : DbState) :
    (createExtensionIfNotExists n s).extensions =
      addIfAbsent id n s.extensions := rfl

theorem createExtensionIfNotExists_types (n : String) (s : DbState) :
    (createExtensionIfNotExists n s).types = s.types := rfl

theorem createExtensionIfNotExists_plans (n : String) (s : DbState) :
    (createExtensionIfNotExists n s).plans = s.plans := rfl

theorem createTypeCatchDuplicate_extensions (n : String) (ls : List String)
    (s : DbState) : (createTypeCatchDuplicate n ls s).extensions =
      s.extensions := rfl

theorem createTypeCatchDuplicate_types (n : String) (ls : List String)
    (s : DbState) : (createTypeCatchDuplicate n ls s).types =
      addIfAbsent Prod.fst (n, ls) s.types := rfl

theorem createTypeCatchDuplicate_plans (n : String) (ls : List String)
    (s : DbState) : (createTypeCatchDuplicate n ls s).plans = s.plans := rfl

theorem insertPlanOnConflict_extensions (r : PlanRow) (s : DbState) :
    (insertPlanOnConflict r s).extensions = s.extensions := rfl

theorem insertPlanOnConflict_types (r : PlanRow) (s : DbState) :
    (insertPlanOnConflict r s).types = s.types := rfl

theorem insertPlanOnConflict_plans (r : PlanRow) (s : DbState) :
    (insertPlanOnConflict r s).plans =
      addIfAbsent PlanRow.name r s.plans := rfl

theorem addAllIfAbsent_nil {α β : Type} [DecidableEq β] (key : α → β)
    (l : List α) : addAllIfAbsent key [] l = l := rfl

theorem addAllIfAbsent_cons {α β : Type} [DecidableEq β] (key : α → β)
    (a : α) (as : List α) (l : List α) :
    addAllIfAbsent key (a :: as) l =
      addAllIfAbsent key as (addIfAbsent key a l) := rfl

theorem mem_map_addAllIfAbsent_of_mem {α β : Type} [DecidableEq β]
    (key : α → β) (as : List α) (l : List α) (b : β) (h : b ∈ l.map key) :
    b ∈ (addAllIfAbsent key as l).map key := by
  induction as generalizing l with
  | nil => exact h
  | cons a as ih =>
    rw [addAllIfAbsent_cons]
    exact ih _ (mem_map_addIfAbsent_of_mem key a l b h)

theorem mem_map_addAllIfAbsent_of_key_mem {α β : Type} [DecidableEq β]
    (key : α → β) (as : List α) (l : List α) (b : β) (h : b ∈ as.map key) :
    b ∈ (addAllIfAbsent key as l).map key := by
  induction as generalizing l with
  | nil => cases h
  | cons a as ih =>
    rw [addAllIfAbsent_cons]
    rcases List.mem_cons.mp h with h1 | h2
    · subst h1
      exact mem_map_addAllIfAbsent_of_mem key as _ _
        (mem_map_addIfAbsent_self key a l)
    · exact ih _ h2

theorem addAllIfAbsent_of_forall_mem {α β : Type} [DecidableEq β]
    (key : α → β) (as : List α) (l : List α)
    (h : ∀ a ∈ as, key a ∈ l.map key) : addAllIfAbsent key as l = l := by
  induction as with
  | nil => rfl
  | cons a as ih =>
    rw [addAllIfAbsent_cons, addIfAbsent_of_mem key a l (h a (List.mem_cons_self a as))]
    exact ih (fun a' ha' => h a' (List.mem_cons_of_mem a ha'))

theorem addAllIfAbsent_idem {α β : Type} [DecidableEq β] (key : α → β)
    (as bs : List α) (l : List α) (h : ∀ a ∈ as, key a ∈ bs.map key) :
    addAllIfAbsent key as (addAllIfAbsent key bs l) =
      addAllIfAbsent key bs l :=
  addAllIfAbsent_of_forall_mem key as _ (fun a ha =>
    mem_map_addAllIfAbsent_of_key_mem key bs l (key a) (h a ha))

theorem runInitDb_extensions (u1 u2 u3 : Nat) (s : DbState) :
    (runInitDb u1 u2 u3 s).extensions =
      addAllIfAbsent id ["uuid-ossp", "pg_trgm"] s.extensions := by
  simp only [runInitDb, insertPlanOnConflict_extensions,
    createTypeCatchDuplicate_extensions, createExtensionIfNotExists_extensions,
    addAllIfAbsent, List.foldl]

theorem runInitDb_types (u1 u2 u3 : Nat) (s : DbState) :
    (runInitDb u1 u2 u3 s).types =
      addAllIfAbsent Prod.fst typeDecls s.types := by
  simp only [runInitDb, insertPlanOnConflict_types,
    createTypeCatchDuplicate_types, createExtensionIfNotExists_types,
    addAllIfAbsent, typeDecls, List.foldl]

theorem runInitDb_plans (u1 u2 u3 : Nat) (s : DbState) :
    (runInitDb u1 u2 u3 s).plans =
      addAllIfAbsent PlanRow.name (seedPlanRows u1 u2 u3) s.plans := by
  simp only [runInitDb, insertPlanOnConflict_plans,
    createTypeCatchDuplicate_plans, createExtensionIfNotExists_plans,
    addAllIfAbsent, seedPlanRows, List.foldl]

/- ===================== Claims C1, C4, C8 ===================== -/

/-- C1 counterexample: the claim says every status value a Filing can hold
is one of the seven spec states (pending, fetching, parsing, persisting,
completed, failed, dead-lettered).  But the enum declared by
scripts/init_db.sql contains the value `processing`, which is not among
the seven, and contains neither `fetching` nor `dead-lettered`. -/
theorem filing_status_spec_mismatch :
    "processing" ∈ processing_status_enum ∧
    "processing" ∉ specFilingStatuses ∧
    "fetching" ∉ processing_status_enum ∧
    "dead-lettered" ∉ processing_status_enum := by decide

/-- C1 amended: the status enum of the SQL script admits exactly four
statuses.  Of the seven states the spec names, only pending, completed and
failed are representable; the spec's three in-progress states are
collapsed into the single value `processing`, and there is no
dead-lettered status. -/
theorem filing_status_enum_states :
    processing_status_enum.length = 4 ∧
    "processing" ∈ processing_status_enum ∧
    processing_status_enum.filter
        (fun s => decide (s ∈ specFilingStatuses)) =
      ["pending", "completed", "failed"] ∧
    specFilingStatuses.filter
        (fun s => decide (s ∈ processing_status_enum)) =
      ["pending", "completed", "failed"] := by decide

/-- C4 counterexample: the claim says the statement category ranges over
exactly five values including `holdings-line`; the enum declared by
scripts/init_db.sql has four labels and no holdings-line value. -/
theorem statement_category_spec_mismatch :
    "holdings-line" ∈ specStatementCategories ∧
    "holdings-line" ∉ statement_type_enum ∧
    statement_type_enum.length = 4 := by decide

/-- C4 amended: a statement category is one of exactly four values:
income, balance, cashflow, equity.  Every value of the code's enum is
among the spec's categories, but the spec's fifth category
(holdings-line) is not a statement category in the schema; holdings rows
live in their own table. -/
theorem statement_category_enum_values :
    statement_type_enum.length = 4 ∧
    statement_type_enum.filter
        (fun s => decide (s ∈ specStatementCategories)) =
      statement_type_enum ∧
    specStatementCategories.filter
        (fun s => decide (s ∈ statement_type_enum)) =
      ["income", "balance", "cashflow", "equity"] := by decide

/-- C8: running scripts/init_db.sql twice leaves the database exactly as
after one run, for any starting state and any uuids drawn by the two
executions: every enum-creation block swallows duplicate_object, and the
seed insert's ON CONFLICT (name) DO NOTHING skips the existing rows. -/
theorem init_db_idempotent (u1 u2 u3 v1 v2 v3 : Nat) (s : DbState) :
    runInitDb v1 v2 v3 (runInitDb u1 u2 u3 s) = runInitDb u1 u2 u3 s := by
  have hext : (runInitDb v1 v2 v3 (runInitDb u1 u2 u3 s)).extensions =
      (runInitDb u1 u2 u3 s).extensions := by
    rw [runInitDb_extensions, runInitDb_extensions u1 u2 u3 s]
    exact addAllIfAbsent_idem id _ _ _ (by decide)
  have htypes : (runInitDb v1 v2 v3 (runInitDb u1 u2 u3 s)).types =
      (runInitDb u1 u2 u3 s).types := by
    rw [runInitDb_types, runInitDb_types u1 u2 u3 s]
    exact addAllIfAbsent_idem Prod.fst _ _ _ (by decide)
  have hplans : (runInitDb v1 v2 v3 (runInitDb u1 u2 u3 s)).plans =
      (runInitDb u1 u2 u3 s).plans := by
    rw [runInitDb_plans, runInitDb_plans u1 u2 u3 s]
    refine addAllIfAbsent_idem PlanRow.name _ _ _ ?_
    intro a ha
    simp only [seedPlanRows, freePlanRow, proPlanRow, enterprisePlanRow,
      List.mem_cons, List.not_mem_nil, or_false] at ha
    rcases ha with h | h | h <;> subst h <;> simp [seedPlanRows, freePlanRow,
      proPlanRow, enterprisePlanRow, PlanRow.name]
  exact DbState.ext hext htypes hplans

/- ============ Theorems: persistence layer (C2, C3) ============ -/

theorem mem_of_mem_dedupByKey (l : List NormalizedFact) (y : NormalizedFact)
    (h : y ∈ dedupByKey l) : y ∈ l := by
  induction l using dedupByKey.induct with
  | case1 => rw [dedupByKey] at h; cases h
  | case2 x xs ih =>
    rw [dedupByKey] at h
    rcases List.mem_cons.mp h with h1 | h2
    · exact h1 ▸ List.mem_cons_self x xs
    · exact List.mem_cons_of_mem x (List.mem_of_mem_filter (ih h2))

theorem dedupByKey_keys_nodup (l : List NormalizedFact) :
    ((dedupByKey l).map (fun x => x.key)).Nodup := by
  induction l using dedupByKey.induct with
  | case1 => simp [dedupByKey]
  | case2 x xs ih =>
    rw [dedupByKey]
    simp only [List.map_cons, List.nodup_cons]
    refine ⟨?_, ih⟩
    intro hmem
    rcases List.mem_map.mp hmem with ⟨y, hy, hk⟩
    have := List.of_mem_filter (mem_of_mem_dedupByKey _ _ hy)
    simp at this
    exact this hk

theorem stampFiling_filingId (f : Nat) (x : NormalizedFact) :
    (stampFiling f x).key.filingId = f := rfl

theorem dedupByKey_stamp_filingId (f : Nat) (facts : List NormalizedFact)
    (y : NormalizedFact) (hy : y ∈ dedupByKey (facts.map (stampFiling f))) :
    y.key.filingId = f := by
  rcases List.mem_map.mp (mem_of_mem_dedupByKey _ _ hy) with ⟨z, _, rfl⟩
  rfl

theorem commit_filter_ne (db : List NormalizedFact) (f : Nat)
    (facts : List NormalizedFact) :
    (dedupByKey (facts.map (stampFiling f))).filter
      (fun x => decide (x.key.filingId ≠ f)) = [] :=
  List.filter_eq_nil_iff.mpr (fun a ha => by
    simp [dedupByKey_stamp_filingId f facts a ha])

/-- C2: for every prior database state, filing and fact list, committing
the filing twice with the same facts (the facts a deterministic
parse-and-normalize yields from identical input bytes) leaves exactly the
fact set of a single commit. -/
theorem commit_idempotent (db : List NormalizedFact) (f : Nat)
    (facts : List NormalizedFact) :
    commit (commit db f facts) f facts = commit db f facts := by
  unfold commit
  rw [List.filter_append, commit_filter_ne db f facts, List.filter_filter]
  simp

theorem commit_filter_eq (db : List NormalizedFact) (f : Nat)
    (facts : List NormalizedFact) :
    (commit db f facts).filter (fun x => decide (x.key.filingId = f)) =
      dedupByKey (facts.map (stampFiling f)) := by
  unfold commit
  rw [List.filter_append]
  have h1 : (db.filter (fun x => decide (x.key.filingId ≠ f))).filter
      (fun x => decide (x.key.filingId = f)) = [] := by
    refine List.filter_eq_nil_iff.mpr (fun a ha => ?_)
    have := List.of_mem_filter ha
    simp at this
    simp [this]
  have h2 : (dedupByKey (facts.map (stampFiling f))).filter
      (fun x => decide (x.key.filingId = f)) =
      dedupByKey (facts.map (stampFiling f)) :=
    List.filter_eq_self.mpr (fun a ha => by
      simp [dedupByKey_stamp_filingId f facts a ha])
  rw [h1, h2, List.nil_append]

theorem commit_keys_nodup (db : List NormalizedFact) (f : Nat)
    (facts : List NormalizedFact)
    (h : (db.map (fun x => x.key)).Nodup) :
    ((commit db f facts).map (fun x => x.key)).Nodup := by
  unfold commit
  rw [List.map_append]
  refine List.nodup_append.mpr ⟨?_, dedupByKey_keys_nodup _, ?_⟩
  · exact h.sublist (List.Sublist.map _ (List.filter_sublist db))
  · intro k hk1 hk2
    rcases List.mem_map.mp hk1 with ⟨x, hx, rfl⟩
    rcases List.mem_map.mp hk2 with ⟨y, hy, hxy⟩
    have hxf : ¬ x.key.filingId = f := by
      have := List.of_mem_filter hx
      simpa using this
    have hyf : y.key.filingId = f := dedupByKey_stamp_filingId f facts y hy
    rw [hxy] at hyf
    exact hxf hyf

theorem reachable_keys_nodup (db : List NormalizedFact)
    (h : ReachableDb db) : (db.map (fun x => x.key)).Nodup := by
  induction h with
  | empty => simp
  | commit db f facts _ ih => exact commit_keys_nodup db f facts ih

/-- C3: in every state reachable by commit operations the key tuple
(filing ID, category, line-item key, period) identifies at most one fact
(the key list has no duplicates, before and after a further commit), and
re-processing a filing overwrites: after a commit the facts stored for
that filing are exactly the new snapshot, never the old rows plus the new
ones. -/
theorem fact_key_uniqueness (db : List NormalizedFact) (h : ReachableDb db)
    (f : Nat) (facts : List NormalizedFact) :
    (db.map (fun x => x.key)).Nodup ∧
    (commit db f facts).filter (fun x => decide (x.key.filingId = f)) =
      dedupByKey (facts.map (stampFiling f)) ∧
    ((commit db f facts).map (fun x => x.key)).Nodup :=
  ⟨reachable_keys_nodup db h, commit_filter_eq db f facts,
   commit_keys_nodup db f facts (reachable_keys_nodup db h)⟩

/-- Witness for C3 at a concrete reachable state: one filing committed,
then the same fact re-committed under another filing id. -/
theorem fact_key_uniqueness_witness :
    ((commit [] 1 [sampleFact]).map (fun x => x.key)).Nodup ∧
    (commit (commit [] 1 [sampleFact]) 2 [sampleFact]).filter
        (fun x => decide (x.key.filingId = 2)) =
      dedupByKey ([sampleFact].map (stampFiling 2)) ∧
    ((commit (commit [] 1 [sampleFact]) 2 [sampleFact]).map
        (fun x => x.key)).Nodup :=
  fact_key_uniqueness (commit [] 1 [sampleFact])
    (ReachableDb.commit [] 1 [sampleFact] ReachableDb.empty) 2 [sampleFact]

/- ============ Theorems: fetcher retry (C5) ============ -/

theorem fetchFrom_spec (locator : String) (responses : Nat → HttpResponse)
    (hclass : ∀ i, isSuccessStatus (responses i).status = true ∨
      isRetryableStatus (responses i).status = true) :
    ∀ remaining, 1 ≤ remaining → ∀ attempt,
    ((∀ e, fetchFrom locator responses attempt remaining = .error e →
        e.locator = locator ∧ e.attempts = attempt + remaining - 1 ∧
        e.lastStatus = (responses (attempt + remaining - 1)).status ∧
        ∀ i, attempt ≤ i → i ≤ attempt + remaining - 1 →
          isSuccessStatus (responses i).status = false) ∧
     (∀ ok, fetchFrom locator responses attempt remaining = .ok ok →
        attempt ≤ ok.attempts ∧ ok.attempts ≤ attempt + remaining - 1 ∧
        isSuccessStatus (responses ok.attempts).status = true ∧
        ok.body = (responses ok.attempts).body ∧
        ∀ i, attempt ≤ i → i < ok.attempts →
          isSuccessStatus (responses i).status = false)) := by
  intro remaining
  induction remaining using Nat.strong_induction_on with
  | _ remaining ih =>
    intro h1 attempt
    match remaining, h1 with
    | 1, _ =>
      constructor
      · intro e he
        rw [fetchFrom] at he
        by_cases hs : isSuccessStatus (responses attempt).status = true
        · rw [if_pos hs] at he; cases he
        · rw [if_neg hs] at he
          cases he
          refine ⟨rfl, by show attempt = attempt + 1 - 1; omega, by simp, ?_⟩
          intro i hi1 hi2
          have hi2' : i ≤ attempt := by
            have : attempt + 1 - 1 = attempt := by omega
            rw [this] at hi2
            exact hi2
          have : i = attempt := by omega
          subst this
          exact Bool.eq_false_iff.mpr hs
      · intro ok hok
        rw [fetchFrom] at hok
        by_cases hs : isSuccessStatus (responses attempt).status = true
        · rw [if_pos hs] at hok
          cases hok
          refine ⟨le_refl _, by show attempt ≤ attempt + 1 - 1; omega, hs,
            rfl, ?_⟩
          intro i hi1 hi2
          have hi2' : i < attempt := hi2
          omega
        · rw [if_neg hs] at hok; cases hok
    | (n + 2), _ =>
      by_cases hs : isSuccessStatus (responses attempt).status = true
      · constructor
        · intro e he
          rw [fetchFrom, if_pos hs] at he
          cases he
        · intro ok hok
          rw [fetchFrom, if_pos hs] at hok
          cases hok
          refine ⟨le_refl _, by show attempt ≤ attempt + (n + 2) - 1; omega,
            hs, rfl, ?_⟩
          intro i hi1 hi2
          have hi2' : i < attempt := hi2
          omega
      · have hr : isRetryableStatus (responses attempt).status = true := by
          rcases hclass attempt with h | h
          · exact absurd h hs
          · exact h
        have hrec := ih (n + 1) (by omega) (by omega) (attempt + 1)
        constructor
        · intro e he
          rw [fetchFrom, if_neg hs, if_pos hr] at he
          obtain ⟨hl, ha, hst, hall⟩ := hrec.1 e he
          refine ⟨hl, by omega, ?_, ?_⟩
          · have heq : attempt + 1 + (n + 1) - 1 = attempt + (n + 2) - 1 := by
              omega
            rw [← heq]; exact hst
          · intro i hi1 hi2
            rcases Nat.eq_or_lt_of_le hi1 with h | h
            · subst h
              exact Bool.eq_false_iff.mpr hs
            · exact hall i (by omega) (by omega)
        · intro ok hok
          rw [fetchFrom, if_neg hs, if_pos hr] at hok
          obtain ⟨h2, h3, h4, h5, hall⟩ := hrec.2 ok hok
          refine ⟨by omega, by omega, h4, h5, ?_⟩
          intro i hi1 hi2
          rcases Nat.eq_or_lt_of_le hi1 with h | h
          · subst h
            exact Bool.eq_false_iff.mpr hs
          · exact hall i (by omega) (by omega)

/-- C5: for every locator and every response sequence of 2xx or
429/5xx-class statuses, the retry loop started with cap N makes at most N
attempts.  It returns FetchFailed exactly when all N allowed attempts
fail, and the error then carries the locator, the status of the final
attempt, and the attempt count N; on a success at attempt a ≤ N every
earlier attempt had failed, so it never gives up while an attempt
remains.  The default cap is 5. -/
theorem fetch_retry_cap (locator : String) (responses : Nat → HttpResponse)
    (N : Nat) (hN : 1 ≤ N)
    (hclass : ∀ i, isSuccessStatus (responses i).status = true ∨
      isRetryableStatus (responses i).status = true) :
    (∀ e, fetchFrom locator responses 1 N = .error e →
        e.locator = locator ∧ e.attempts = N ∧
        e.lastStatus = (responses N).status ∧
        ∀ i, 1 ≤ i → i ≤ N → isSuccessStatus (responses i).status = false) ∧
    (∀ ok, fetchFrom locator responses 1 N = .ok ok →
        1 ≤ ok.attempts ∧ ok.attempts ≤ N ∧
        isSuccessStatus (responses ok.attempts).status = true ∧
        ok.body = (responses ok.attempts).body ∧
        ∀ i, 1 ≤ i → i < ok.attempts →
          isSuccessStatus (responses i).status = false) ∧
    defaultMaxAttempts = 5 := by
  have h := fetchFrom_spec locator responses hclass N hN 1
  have hsub : 1 + N - 1 = N := by omega
  rw [hsub] at h
  exact ⟨h.1, h.2, rfl⟩

/-- Witness for C5: a source that always answers 500 exhausts the default
five attempts and surfaces FetchFailed with attempt count 5. -/
theorem fetch_retry_cap_witness :
    fetchFrom "sec/index.json" (fun _ => ⟨500, "unavailable"⟩) 1 5 =
      Except.error ⟨"sec/index.json", 500, 5⟩ ∧
    (FetchFailed.mk "sec/index.json" 500 5).attempts = 5 :=
  ⟨rfl,
   ((fetch_retry_cap "sec/index.json" (fun _ => ⟨500, "unavailable"⟩) 5
      (by omega) (fun i => Or.inr (show isRetryableStatus 500 = true by
        decide))).1
      ⟨"sec/index.json", 500, 5⟩ rfl).2.1⟩

/- ============ Theorems: normalizer example (C6) ============ -/

/-- C6: the spec's worked example.  A taxonomy-fact document declaring
value "1234" with scale thousands for line item Revenue, period-end
2023-12-31, form type annual, normalizes to the fact with category
income, canonical key revenue, value 1234000 (the scale multiplies the
raw value) and fiscal period year 2023 with null quarter (annual form). -/
theorem normalize_revenue_example :
    normalizeDoc ⟨"thousands", ⟨2023, 12, 31⟩, FormType.annual,
        [⟨"Revenue", "1234"⟩]⟩ =
      [{ key := { filingId := 0, category := "income",
                  lineItemKey := "revenue", period := ⟨2023, none⟩ },
         value := 1234000, unit := "USD", currency := "USD",
         provenance := "Revenue" }] := by decide

/- ============ Theorems: dashboard page (C9, C10) ============ -/

/-- C9: a dashboard load with no access_token in localStorage makes no
API request, pushes /login and leaves the loading flag set; with a token,
a failed user-info request (non-ok or thrown) pushes /login after the
single user request, and a failed key-list request after a successful
user request also pushes /login; no navigation happens exactly when the
token is present and both requests succeed. -/
theorem dashboard_login_redirect (env : FetchUserEnv) :
    (tokenFalsy env.token = true →
      (fetchUserData env).requests = [] ∧
      (fetchUserData env).nav = some "/login" ∧
      (fetchUserData env).loadingAfter = true) ∧
    (tokenFalsy env.token = false → apiResultOk env.userRes = false →
      (fetchUserData env).requests = ["/v1/auth/me"] ∧
      (fetchUserData env).nav = some "/login") ∧
    (tokenFalsy env.token = false → apiResultOk env.userRes = true →
      apiResultOk env.keysRes = false →
      (fetchUserData env).nav = some "/login") ∧
    ((fetchUserData env).nav = none ↔
      tokenFalsy env.token = false ∧ apiResultOk env.userRes = true ∧
      apiResultOk env.keysRes = true) := by
  obtain ⟨t, ur, kr⟩ := env
  cases h : tokenFalsy t <;> cases ur <;> cases kr <;>
    simp [fetchUserData, apiResultOk, h]

/-- Witness for C9: a load with no stored token requests nothing, goes
to /login and never clears the loading flag. -/
theorem dashboard_login_redirect_witness :
    (fetchUserData ⟨none, ApiResult.thrown, ApiResult.thrown⟩).requests =
      [] ∧
    (fetchUserData ⟨none, ApiResult.thrown, ApiResult.thrown⟩).nav =
      some "/login" ∧
    (fetchUserData ⟨none, ApiResult.thrown,
      ApiResult.thrown⟩).loadingAfter = true :=
  (dashboard_login_redirect ⟨none, ApiResult.thrown, ApiResult.thrown⟩).1
    rfl

/-- C10: the persistent key list renders only each key's prefix and
creation date (plus fixed labels), never a full key value; the modal
opens only through a successful createApiKey (which populates it with
the created key), the Copy and Close button is the only transition that
closes an open modal, a closed modal renders nothing, and along any
event trace the modal opens at most once per successful creation. -/
theorem api_key_shown_once :
    (∀ keys v, v ∈ renderKeyList keys →
      v = "No API keys yet. Create one to get started." ∨
      ∃ k, k ∈ keys ∧ (v = k.keyPrefix ∨
        v = "Created " ++ k.createdAt ∨ v = "Revoke")) ∧
    (∀ s e, (dashStep s e).showKeyModal = true →
      s.showKeyModal = true ∨ ∃ k, e = DashEvent.createSuccess k) ∧
    (∀ s e, s.showKeyModal = true → (dashStep s e).showKeyModal = false →
      e = DashEvent.closeModal) ∧
    (∀ k, renderKeyModal false k = []) ∧
    (∀ s es, countOpenings s es ≤ countCreates es) := by
  refine ⟨?_, ?_, ?_, ?_, ?_⟩
  · intro keys v hv
    unfold renderKeyList at hv
    by_cases h0 : keys.length = 0
    · rw [if_pos h0] at hv
      simp at hv
      exact Or.inl hv
    · rw [if_neg h0] at hv
      right
      simp only [List.mem_flatten, List.mem_map] at hv
      obtain ⟨row, ⟨k, hk, hrow⟩, hvrow⟩ := hv
      subst hrow
      refine ⟨k, hk, ?_⟩
      simp only [List.mem_cons, List.not_mem_nil, or_false] at hvrow
      exact hvrow
  · intro s e h
    cases e with
    | createSuccess k => exact Or.inr ⟨k, rfl⟩
    | createFailure => exact Or.inl h
    | closeModal => cases h
    | refresh => exact Or.inl h
  · intro s e h1 h2
    cases e with
    | createSuccess k => cases h2
    | createFailure => simp [dashStep, h1] at h2
    | closeModal => rfl
    | refresh => simp [dashStep, h1] at h2
  · intro k; rfl
  · intro s es
    induction es generalizing s with
    | nil => exact le_refl 0
    | cons e es ih =>
      cases e with
      | createSuccess k =>
        rw [countOpenings]
        have hrec := ih (dashStep s (DashEvent.createSuccess k))
        have hc : countCreates (DashEvent.createSuccess k :: es) =
            countCreates es + 1 := by
          simp [countCreates, List.countP_cons]
        rw [hc]
        split <;> omega
      | createFailure =>
        rw [countOpenings]
        have hrec := ih (dashStep s DashEvent.createFailure)
        have hc : countCreates (DashEvent.createFailure :: es) =
            countCreates es := by
          simp [countCreates, List.countP_cons]
        rw [hc]
        split
        · rename_i h
          simp [dashStep] at h
        · simpa [dashStep] using hrec
      | closeModal =>
        rw [countOpenings]
        have hrec := ih (dashStep s DashEvent.closeModal)
        have hc : countCreates (DashEvent.closeModal :: es) =
            countCreates es := by
          simp [countCreates, List.countP_cons]
        rw [hc]
        split
        · rename_i h
          simp [dashStep] at h
        · simpa [dashStep] using hrec
      | refresh =>
        rw [countOpenings]
        have hrec := ih (dashStep s DashEvent.refresh)
        have hc : countCreates (DashEvent.refresh :: es) =
            countCreates es := by
          simp [countCreates, List.countP_cons]
        rw [hc]
        split
        · rename_i h
          simp [dashStep] at h
        · simpa [dashStep] using hrec

/-- Witness for C10: a rendered one-row key list shows the key prefix. -/
theorem api_key_shown_once_witness :
    "aihf_live_ab12" = "No API keys yet. Create one to get started." ∨
    ∃ k, k ∈ [ApiKeyRow.mk "key-1" "aihf_live_ab12" "2024-01-01"] ∧
      ("aihf_live_ab12" = k.keyPrefix ∨
       "aihf_live_ab12" = "Created " ++ k.createdAt ∨
       "aihf_live_ab12" = "Revoke") :=
  api_key_shown_once.1 [ApiKeyRow.mk "key-1" "aihf_live_ab12" "2024-01-01"]
    "aihf_live_ab12" (by decide)
